import Mathlib

/-!
Verification of the core orchestration of the ai-reaction comment system:
the decision engine (scoring, timing, frequency suppression, dynamic
threshold), the text buffers, the short-turn aggregator, the latest-wins
detection queue, and the comment emission path of the system facade.

Numbers that the source manipulates as JS doubles are modelled as rationals;
the single non-rational operation (the `**` power used for time decay) is
abstracted as an explicit function parameter `rpow`, so every statement below
holds for the runtime's power function in particular.
-/

namespace ProfAIReaction

/-- A transcription turn: media-relative seconds, as in `type.ts`. -/
structure Turn where
  id : String
  content : String
  startTime : ℚ
  endTime : ℚ
  deriving DecidableEq, Repr

/-- The closed set of event types the detector can produce. -/
inductive EventType where
  | emotion_peak
  | topic_change
  | question_raised
  | conclusion_reached
  | key_point
  | climax_moment
  | summary_point
  deriving DecidableEq, Repr, BEq

/-- A detected event, with the fields the decision engine reads:
`metadata?.contentQualityScore` is optional in the source, hence `Option`. -/
structure Event where
  type : EventType
  confidence : ℚ
  intensity : ℚ
  timestamp : ℚ
  contentQualityScore : Option ℚ
  deriving DecidableEq, Repr

/-- A generated comment, with the fields the decision engine reads:
`metadata?.timestamp` is optional in the source, hence `Option`. -/
structure Comment where
  id : String
  content : String
  writer : String
  length : ℕ
  generationTime : ℚ
  timestamp : Option ℚ
  deriving DecidableEq, Repr

/-- The decision-engine configuration (`DecisionEngineConfig` in the source). -/
structure DecisionEngineConfig where
  baseThreshold : ℚ
  minInterval : ℚ
  maxInterval : ℚ
  emotionWeight : ℚ
  topicWeight : ℚ
  timingWeight : ℚ
  importanceWeight : ℚ
  keywordWeight : ℚ
  timeDecayRate : ℚ
  deriving DecidableEq, Repr

/-- The decision engine's mutable fields (`DecisionEngine` in
`decision-engine/service.ts`). `lastCommentTime` starts at `-Infinity` in the
source, modelled as `none`. -/
structure EngineState where
  lastCommentTime : Option ℚ
  commentHistory : List Comment
  dynamicThreshold : ℚ
  deriving DecidableEq, Repr

/-- The constructor of `DecisionEngine`: starts with a raised threshold
`min(baseThreshold * 1.3, 0.85)` and empty history. -/
def initState (cfg : DecisionEngineConfig) : EngineState :=
  { lastCommentTime := none
    commentHistory := []
    dynamicThreshold := min (cfg.baseThreshold * 1.3) 0.85 }

/-- `Math.max(...)` over the confidences of a nonempty event list; the caller
leaves the factor at 0 on an empty list. -/
def maxConfidence : List Event → ℚ
  | [] => 0
  | e :: es => es.foldl (fun a x => max a x.confidence) e.confidence

/-- `DecisionEngine.calculateTimingScore`, verbatim from the source. -/
def calculateTimingScore (cfg : DecisionEngineConfig) (timeSinceLastComment : ℚ) : ℚ :=
  if timeSinceLastComment < cfg.minInterval then
    max 0.05 (timeSinceLastComment / cfg.minInterval * 0.2)
  else if timeSinceLastComment > cfg.maxInterval then 1
  else (timeSinceLastComment - cfg.minInterval) / (cfg.maxInterval - cfg.minInterval)

/-- `DecisionEngine.calculateFrequencySuppression`: counts history comments with
`currentTimestamp - timestamp < 90000 && currentTimestamp - timestamp >= 0`
(the literal 90000 of the source), then maps the count through the
suppression ladder. -/
def calculateFrequencySuppression (history : List Comment) (currentTimestamp : ℚ) : ℚ :=
  let recentCommentsCount :=
    (history.filter fun c =>
      match c.timestamp with
      | some t => decide (currentTimestamp - t < 90000) && decide (currentTimestamp - t ≥ 0)
      | none => false).length
  if recentCommentsCount ≥ 3 then 0.2
  else if recentCommentsCount ≥ 2 then 0.4
  else if recentCommentsCount ≥ 1 then 0.6
  else 1

/-- `DecisionEngine.calculateContentQualityBonus`: per-event
`max(0, (q - 3) / 10 * 0.3)`, summed and capped at 0.3. -/
def calculateContentQualityBonus (events : List Event) : ℚ :=
  let bonus := events.foldl
    (fun acc e =>
      match e.contentQualityScore with
      | some q => acc + max 0 ((q - 3) / 10 * 0.3)
      | none => acc) 0
  min bonus 0.3

/-- The five scoring factors of a decision. -/
structure Factors where
  emotion : ℚ
  topic : ℚ
  timing : ℚ
  importance : ℚ
  keyword : ℚ
  deriving DecidableEq, Repr

/-- `DecisionEngine.calculateWeightedScore`. -/
def calculateWeightedScore (cfg : DecisionEngineConfig) (f : Factors) : ℚ :=
  f.emotion * cfg.emotionWeight + f.topic * cfg.topicWeight +
    f.timing * cfg.timingWeight + f.importance * cfg.importanceWeight +
    f.keyword * cfg.keywordWeight

/-- Comment priority. -/
inductive Priority where
  | low
  | medium
  | high
  deriving DecidableEq, Repr

/-- `DecisionEngine.determinePriority`. -/
def determinePriority (score : ℚ) (events : List Event) : Priority :=
  let hasImportantEvent := events.any fun e =>
    e.type == EventType.conclusion_reached || e.type == EventType.climax_moment
  if hasImportantEvent = true ∧ score > 0.95 then Priority.high
  else if score > 0.85 then Priority.medium
  else Priority.low

/-- `DecisionEngine.calculateSuggestedDelay` (milliseconds). -/
def calculateSuggestedDelay (cfg : DecisionEngineConfig) (priority : Priority)
    (timeSinceLastComment : ℚ) : ℚ :=
  let baseDelay : ℚ :=
    match priority with
    | Priority.high => 1500
    | Priority.medium => 2500
    | Priority.low => 4000
  if timeSinceLastComment < cfg.minInterval then
    baseDelay + (cfg.minInterval - timeSinceLastComment) * 1000
  else baseDelay

/-- `DecisionEngine.adjustThreshold`, the three-branch dynamic threshold
update. -/
def adjustThreshold (cfg : DecisionEngineConfig) (threshold : ℚ) (commented : Bool)
    (timeSinceLastComment : ℚ) : ℚ :=
  if commented = true ∧ timeSinceLastComment < cfg.minInterval * 1.5 then
    min 0.95 (threshold * 1.05)
  else if commented = false ∧ timeSinceLastComment > cfg.maxInterval then
    max 0.3 (threshold * 0.95)
  else threshold + (cfg.baseThreshold - threshold) * 0.1

/-- The decision record returned by `evaluate` (`reasoning`, a log string,
is omitted: no claim reads it). -/
structure Decision where
  shouldComment : Bool
  confidence : ℚ
  score : ℚ
  factors : Factors
  priority : Priority
  suggestedDelay : ℚ
  deriving DecidableEq, Repr

/-- `DecisionEngine.evaluate`: computes the factors, modifiers, final score,
decision and suggested delay, then adjusts the dynamic threshold. `rpow`
stands for the JS `**` operator used for the time-decay modifier. -/
def evaluate (rpow : ℚ → ℚ → ℚ) (cfg : DecisionEngineConfig) (st : EngineState)
    (events : List Event) (timestamp : ℚ) : Decision × EngineState :=
  let timeSinceLastComment : ℚ :=
    match st.lastCommentTime with
    | none => 0
    | some lct => max 0 ((timestamp - lct) / 1000)
  let conversationTime := timestamp / 1000
  let timing : ℚ :=
    if conversationTime < 20 then 0.1
    else calculateTimingScore cfg timeSinceLastComment
  let factors : Factors :=
    { emotion := maxConfidence (events.filter fun e => e.type == EventType.emotion_peak)
      topic := maxConfidence (events.filter fun e => e.type == EventType.topic_change)
      timing := timing
      importance := maxConfidence (events.filter fun e =>
        e.type == EventType.conclusion_reached || e.type == EventType.key_point ||
          e.type == EventType.summary_point)
      keyword := maxConfidence (events.filter fun e => e.type == EventType.question_raised) }
  let contentQualityBonus := calculateContentQualityBonus events
  let baseScore := calculateWeightedScore cfg factors
  let timeDecay := rpow cfg.timeDecayRate (max 0 (60 - timeSinceLastComment) / 60)
  let frequencySuppression := calculateFrequencySuppression st.commentHistory timestamp
  let finalScore := (baseScore + contentQualityBonus) * timeDecay * frequencySuppression
  let priority := determinePriority finalScore events
  let shouldComment : Bool := decide (finalScore > st.dynamicThreshold)
  let confidence := min (finalScore / st.dynamicThreshold) 1
  let suggestedDelay := calculateSuggestedDelay cfg priority timeSinceLastComment
  ({ shouldComment := shouldComment
     confidence := confidence
     score := finalScore
     factors := factors
     priority := priority
     suggestedDelay := suggestedDelay },
   { st with dynamicThreshold :=
      adjustThreshold cfg st.dynamicThreshold shouldComment timeSinceLastComment })

/-- `DecisionEngine.updateHistory`: append the comment, set `lastCommentTime`
from `metadata.timestamp` (falling back to `Date.now()`, passed as `nowMs`),
and trim the history to the 10 newest (one `shift()` per call). -/
def updateHistory (nowMs : ℚ) (st : EngineState) (c : Comment) : EngineState :=
  let history := st.commentHistory ++ [c]
  let lct : ℚ :=
    match c.timestamp with
    | some t => t
    | none => nowMs
  { st with
    commentHistory := if history.length > 10 then history.tail else history
    lastCommentTime := some lct }

/-- A text segment of a buffer (`TextSegment` in `type.ts`): timestamp is the
appended turn's `endTime`, position a monotonic counter. -/
structure TextSegment where
  content : String
  timestamp : ℚ
  position : ℕ
  deriving DecidableEq, Repr

/-- The mutable fields of `TextBuffer` in `text-buffer/service.ts`. -/
structure TextBuffer where
  segments : List TextSegment
  position : ℕ
  deriving DecidableEq, Repr

/-- `TextBuffer.append`. -/
def TextBuffer.append (b : TextBuffer) (turn : Turn) : TextBuffer :=
  { segments := b.segments ++
      [{ content := turn.content, timestamp := turn.endTime, position := b.position }]
    position := b.position + 1 }

/-- `TextBuffer.getWindow`: the source computes
`cutoff = now - size * 1000` against second-valued timestamps (`now` falls
back to 0 on an empty buffer) and space-joins the segments at or after the
cutoff, in arrival order. -/
def TextBuffer.getWindow (b : TextBuffer) (size : ℚ) : String :=
  let now := ((b.segments.getLast?).map TextSegment.timestamp).getD 0
  let cutoff := now - size * 1000
  String.intercalate " "
    ((b.segments.filter fun s => decide (s.timestamp ≥ cutoff)).map TextSegment.content)

/-- `TextBuffer.clear`: drop all segments, reset the position counter. -/
def TextBuffer.clear (_b : TextBuffer) : TextBuffer :=
  { segments := [], position := 0 }

/-- The aggregator configuration (`ShortTurnAggregatorConfig`); the two
optional limits are `??`-defaulted to 0 (disabled) by the code that reads
them. -/
structure ShortTurnAggregatorConfig where
  minTurnDurationMs : ℚ
  aggregationMaxDelayMs : ℚ
  aggregationMaxGapMs : ℚ
  aggregationMaxWords : Option ℚ
  aggregationMaxTotalDurationMs : Option ℚ
  deriving DecidableEq, Repr

/-- The aggregator's buffer fields (`ShortTurnAggregator`); the debounce timer
handle carries no data relevant to the claims below. -/
structure AggState where
  bufferedContent : String
  bufferedStartTime : ℚ
  lastTurnEndTime : ℚ
  aggregatedWordCount : ℕ
  deriving DecidableEq, Repr

/-- `ShortTurnAggregator.resetBuffer`. -/
def aggResetState : AggState :=
  { bufferedContent := "", bufferedStartTime := 0, lastTurnEndTime := 0,
    aggregatedWordCount := 0 }

/-- The append half of `ShortTurnAggregator.add`: discard the buffer when
inactive or when the gap to the previous turn exceeds
`aggregationMaxGapMs`, then append the content with a separating space and
recount words. `countWords` abstracts the `Intl.Segmenter`-based counter. -/
def appendTurn (countWords : String → ℕ) (cfg : ShortTurnAggregatorConfig)
    (st : AggState) (turn : Turn) : AggState :=
  let hasActiveBuffer := st.bufferedContent ≠ ""
  let gapMs : ℚ :=
    if hasActiveBuffer then (turn.startTime - st.lastTurnEndTime) * 1000 else 0
  let tooFarFromPrevious := hasActiveBuffer ∧ gapMs > cfg.aggregationMaxGapMs
  let st0 :=
    if ¬hasActiveBuffer ∨ tooFarFromPrevious then
      { aggResetState with bufferedStartTime := turn.startTime }
    else st
  let newContent :=
    if st0.bufferedContent = "" then turn.content
    else st0.bufferedContent ++ " " ++ turn.content
  { bufferedContent := newContent
    bufferedStartTime := st0.bufferedStartTime
    lastTurnEndTime := turn.endTime
    aggregatedWordCount := countWords newContent }

/-- `ShortTurnAggregator.add`: append, then flush immediately when a trigger
holds — note the source guards both `elapsedMs` and `durationReached` with
`bufferedStartTime > 0`. Returns the new buffer state and the flushed turn. -/
def ShortTurnAggregator.add (countWords : String → ℕ) (cfg : ShortTurnAggregatorConfig)
    (st : AggState) (turn : Turn) : AggState × Option Turn :=
  let st1 := appendTurn countWords cfg st turn
  let elapsedMs : ℚ :=
    if st1.bufferedStartTime > 0 then
      (st1.lastTurnEndTime - st1.bufferedStartTime) * 1000
    else 0
  let durationReached :=
    st1.bufferedStartTime > 0 ∧ elapsedMs ≥ cfg.minTurnDurationMs
  let maxWords := cfg.aggregationMaxWords.getD 0
  let wordLimitReached := maxWords > 0 ∧ (st1.aggregatedWordCount : ℚ) ≥ maxWords
  let maxTotalDuration := cfg.aggregationMaxTotalDurationMs.getD 0
  let totalDurationExceeded := maxTotalDuration > 0 ∧ elapsedMs ≥ maxTotalDuration
  if durationReached ∨ wordLimitReached ∨ totalDurationExceeded then
    (aggResetState,
     some { id := turn.id, content := st1.bufferedContent,
            startTime := st1.bufferedStartTime, endTime := st1.lastTurnEndTime })
  else (st1, none)

/-- A detection job (`DetectionJob` in `event-detector/def.ts`), stamped with
the wall-clock enqueue time. -/
structure DetectionJob where
  turn : Turn
  uncommentedText : String
  fullContext : Option String
  enqueuedAtMs : ℚ
  deriving DecidableEq, Repr

/-- `CommentSystem.MAX_TURN_STALENESS_MS`. -/
def MAX_TURN_STALENESS_MS : ℚ := 5000

/-- `CommentSystem.isTurnStale`: wall-clock enqueue age strictly above the
staleness bound; `false` when no enqueue stamp is present. -/
def isTurnStale (enqueuedAtMs : Option ℚ) (nowMs : ℚ) : Bool :=
  match enqueuedAtMs with
  | none => false
  | some t => decide (nowMs - t > MAX_TURN_STALENESS_MS)

/-- `EventDetectionQueue.enqueue`: stamp `enqueuedAtMs = Date.now()` (passed
as `nowMs`) and overwrite whatever job the single slot held. -/
def EventDetectionQueue.enqueue (nowMs : ℚ) (_pending : Option DetectionJob)
    (turn : Turn) (uncommentedText : String) (fullContext : Option String) :
    Option DetectionJob :=
  some { turn := turn, uncommentedText := uncommentedText,
         fullContext := fullContext, enqueuedAtMs := nowMs }

/-- What the worker's drain loop does with one pick-up. -/
inductive WorkerOutcome where
  | idle
  | dropStale (j : DetectionJob)
  | process (j : DetectionJob)
  deriving DecidableEq, Repr

/-- The head of `EventDetectionQueue.processNext`'s drain loop: take the slot,
empty it, and either finish, drop the job as stale, or process it. -/
def workerPick (isStaleAt : DetectionJob → Bool) (pending : Option DetectionJob) :
    Option DetectionJob × WorkerOutcome :=
  match pending with
  | none => (none, WorkerOutcome.idle)
  | some j =>
      (none, if isStaleAt j then WorkerOutcome.dropStale j else WorkerOutcome.process j)

/-- The staleness guard at the top of `CommentSystem.processJob`: `true` when
the job survives the second check and detection is reached. -/
def processJobReachesDetection (j : DetectionJob) (nowMs : ℚ) : Bool :=
  if isTurnStale (some j.enqueuedAtMs) nowMs then false else true

/-- One interleaving step against the queue's single slot: an enqueue (with
its stamped job) or a worker pick-up. -/
inductive QAction where
  | enq (j : DetectionJob)
  | pick
  deriving DecidableEq, Repr

/-- Slot transition for one action, returning the job a pick-up takes. -/
def qstep : Option DetectionJob → QAction → Option DetectionJob × Option DetectionJob
  | _, QAction.enq j => (some j, none)
  | s, QAction.pick => (none, s)

/-- The slot after a whole interleaving, starting empty. -/
def qrunState (s : Option DetectionJob) (tr : List QAction) : Option DetectionJob :=
  tr.foldl (fun t a => (qstep t a).fst) s

/-- Specification-side reading of the trace: the most recently enqueued job
with no pick-up after it — `some j` exactly when the trace ends in `enq j`. -/
def latestUnpicked (tr : List QAction) : Option DetectionJob :=
  match tr.getLast? with
  | some (QAction.enq j) => some j
  | _ => none

/-- How many jobs the slot holds. -/
def pendingCount (s : Option DetectionJob) : ℕ :=
  s.elim 0 fun _ => 1

/-- Outcome of one `generateComment` call as `generateAndEmitComment` observes
it: an exception (before or after the `comment-started` emit), or a final
output `{reject, reason, content}`. -/
inductive GenOutcome where
  | genError (started : Bool)
  | result (reject : Bool) (reason : String) (content : String)
  deriving DecidableEq, Repr

/-- The observable actions of one `generateAndEmitComment` run, in order. -/
inductive EmitAction where
  | commentStarted
  | commentRejected (reason : String)
  | historyUpdated (c : Comment)
  | uncommentedCleared
  | commentGenerated (c : Comment)
  | errorEmitted
  deriving DecidableEq, Repr

/-- The facade state `generateAndEmitComment` touches. -/
structure SystemState where
  fullContextBuffer : TextBuffer
  uncommentedBuffer : TextBuffer
  engine : EngineState
  deriving DecidableEq, Repr

/-- `CommentSystem.generateAndEmitComment` (`system.ts` / its richer sibling):
on an exception, emit `error` and change nothing; on `reject`, emit
`comment-rejected` and change nothing; on empty content, return silently;
otherwise build the comment with `metadata.timestamp = turn.endTime`, update
the decision-engine history, clear the uncommented buffer, and emit
`comment-generated`. -/
def generateAndEmitComment (nowMs : ℚ) (st : SystemState) (turn : Turn)
    (outcome : GenOutcome) (writer commentId : String) (generationTime : ℚ) :
    SystemState × List EmitAction :=
  match outcome with
  | GenOutcome.genError started =>
      (st, (if started then [EmitAction.commentStarted] else []) ++ [EmitAction.errorEmitted])
  | GenOutcome.result reject reason content =>
      if reject then
        (st, [EmitAction.commentStarted, EmitAction.commentRejected reason])
      else if content = "" then
        (st, [EmitAction.commentStarted])
      else
        let comment : Comment :=
          { id := commentId, content := content, writer := writer,
            length := content.length, generationTime := generationTime,
            timestamp := some turn.endTime }
        ({ fullContextBuffer := st.fullContextBuffer
           uncommentedBuffer := TextBuffer.clear st.uncommentedBuffer
           engine := updateHistory nowMs st.engine comment },
         [EmitAction.commentStarted, EmitAction.historyUpdated comment,
          EmitAction.uncommentedCleared, EmitAction.commentGenerated comment])

/-- One scheduled generation run: the triggering turn and what the generator
returned for it. -/
structure EmissionStep where
  turn : Turn
  outcome : GenOutcome
  writer : String
  commentId : String
  generationTime : ℚ
  deriving DecidableEq, Repr

/-- Whether a run emits `comment-generated`: accepted and nonempty. -/
def emitsStep (s : EmissionStep) : Bool :=
  match s.outcome with
  | GenOutcome.result reject _ content => !reject && !(content == "")
  | GenOutcome.genError _ => false

/-- Whether an action is a `comment-generated` emit. -/
def isCommentGenerated : EmitAction → Bool
  | EmitAction.commentGenerated _ => true
  | _ => false

/-- Run a sequence of generation runs, recording the engine's
`lastCommentTime` right after each run that emits `comment-generated`. -/
def lctSnapshots (nowMs : ℚ) : SystemState → List EmissionStep → List (Option ℚ)
  | _, [] => []
  | st, s :: rest =>
      let out := generateAndEmitComment nowMs st s.turn s.outcome s.writer
        s.commentId s.generationTime
      (if out.snd.any isCommentGenerated then [out.fst.engine.lastCommentTime] else [])
        ++ lctSnapshots nowMs out.fst rest

/-- One `evaluate` call folded into the engine state. -/
def evalStep (rpow : ℚ → ℚ → ℚ) (cfg : DecisionEngineConfig) (st : EngineState)
    (p : List Event × ℚ) : EngineState :=
  (evaluate rpow cfg st p.fst p.snd).snd

/-- The engine state after a sequence of `evaluate` calls. -/
def runEvaluations (rpow : ℚ → ℚ → ℚ) (cfg : DecisionEngineConfig) (st : EngineState)
    (steps : List (List Event × ℚ)) : EngineState :=
  steps.foldl (evalStep rpow cfg) st

/-- Claimed timing formula (C1 as stated): conversation time is `timestamp`
itself in seconds and the gap is `timestamp - lastCommentTime`, with no /1000
anywhere. -/
def claimTimingFactor (cfg : DecisionEngineConfig) (lastCommentTime : Option ℚ)
    (timestamp : ℚ) : ℚ :=
  if timestamp < 20 then 0.1
  else
    let d : ℚ :=
      match lastCommentTime with
      | none => 0
      | some lct => max 0 (timestamp - lct)
    if d < cfg.minInterval then max 0.05 (d / cfg.minInterval * 0.2)
    else if d > cfg.maxInterval then 1
    else (d - cfg.minInterval) / (cfg.maxInterval - cfg.minInterval)

/-- The timing formula the code computes: same branch structure as the claim,
but with `conversationTime = timestamp / 1000` and
`gap = max(0, (timestamp - lastCommentTime) / 1000)`. -/
def timingFactorAmended (cfg : DecisionEngineConfig) (lastCommentTime : Option ℚ)
    (timestamp : ℚ) : ℚ :=
  if timestamp / 1000 < 20 then 0.1
  else
    let d : ℚ :=
      match lastCommentTime with
      | none => 0
      | some lct => max 0 ((timestamp - lct) / 1000)
    if d < cfg.minInterval then max 0.05 (d / cfg.minInterval * 0.2)
    else if d > cfg.maxInterval then 1
    else (d - cfg.minInterval) / (cfg.maxInterval - cfg.minInterval)

/-- Claimed frequency-suppression formula (C2 as stated): count the history
comments whose timestamp lies in the media-seconds window
`[timestamp - 90, timestamp)`. -/
def claimFrequencySuppression (history : List Comment) (timestamp : ℚ) : ℚ :=
  let n :=
    (history.filter fun c =>
      match c.timestamp with
      | some m => decide (timestamp - 90 ≤ m) && decide (m < timestamp)
      | none => false).length
  if 3 ≤ n then 0.2 else if n = 2 then 0.4 else if n = 1 then 0.6 else 1

/-- The count the code's window really takes: comments with
`0 ≤ timestamp - m < 90000`. -/
def recentCommentCount (history : List Comment) (timestamp : ℚ) : ℕ :=
  history.countP fun c =>
    match c.timestamp with
    | some m => decide (timestamp - m < 90000) && decide (timestamp - m ≥ 0)
    | none => false

/-- Claimed window (C6 as stated): cutoff `newest.timestamp - size` with
`size` in the same seconds unit as the segment timestamps. -/
def claimGetWindow (b : TextBuffer) (size : ℚ) : String :=
  match b.segments.getLast? with
  | none => ""
  | some newest =>
      String.intercalate " "
        ((b.segments.filter fun s => decide (s.timestamp ≥ newest.timestamp - size)).map
          TextSegment.content)

/-- The window the code computes on a non-empty buffer: cutoff
`newest.timestamp - size * 1000`. -/
def getWindowAmended (b : TextBuffer) (size : ℚ) : String :=
  match b.segments.getLast? with
  | none => ""
  | some newest =>
      String.intercalate " "
        ((b.segments.filter fun s =>
          decide (s.timestamp ≥ newest.timestamp - size * 1000)).map
          TextSegment.content)

/-- A power function standing in for `**` in concrete instances. -/
def rpowOne : ℚ → ℚ → ℚ := fun _ _ => 1

/-- The spec's default decision-engine configuration (§6 table). -/
def cfgStd : DecisionEngineConfig :=
  { baseThreshold := 0.65, minInterval := 20, maxInterval := 90,
    emotionWeight := 0.2, topicWeight := 0.4, timingWeight := 0.15,
    importanceWeight := 0.6, keywordWeight := 0.3, timeDecayRate := 0.95 }

/-- The default configuration with `baseThreshold = 0`. -/
def cfgBaseZero : DecisionEngineConfig := { cfgStd with baseThreshold := 0 }

/-- The default configuration with `baseThreshold = 1`. -/
def cfgBaseOne : DecisionEngineConfig := { cfgStd with baseThreshold := 1 }

/-- A history comment at a given media timestamp. -/
def commentAt (t : ℚ) : Comment :=
  { id := "c", content := "x", writer := "w", length := 1,
    generationTime := 0, timestamp := some t }

/-- Two history comments, one 80000 media units old and one current. -/
def history0 : List Comment := [commentAt 20000, commentAt 100000]

/-- A buffer with segments at timestamps 0 and 100. -/
def buf0 : TextBuffer :=
  { segments := [{ content := "a", timestamp := 0, position := 0 },
                 { content := "b", timestamp := 100, position := 1 }],
    position := 2 }

/-- A constant word counter for concrete aggregator runs. -/
def cwOne : String → ℕ := fun _ => 1

/-- The aggregator defaults (`defaultShortTurnAggregatorConfig`). -/
def aggCfgDefault : ShortTurnAggregatorConfig :=
  { minTurnDurationMs := 1200, aggregationMaxDelayMs := 800, aggregationMaxGapMs := 400,
    aggregationMaxWords := some 50, aggregationMaxTotalDurationMs := some 12000 }

/-- A ten-second turn that starts at media time 0. -/
def turnAtZero : Turn := { id := "a", content := "hello", startTime := 0, endTime := 10 }

/-- A five-second turn starting at media time 5. -/
def turnAtFive : Turn := { id := "b", content := "hi", startTime := 5, endTime := 10 }

/-- A concrete facade state for witnesses. -/
def sysState0 : SystemState :=
  { fullContextBuffer := buf0, uncommentedBuffer := buf0, engine := initState cfgStd }

/-- A successful emission step for a turn ending at `t`. -/
def okStepAt (t : ℚ) : EmissionStep :=
  { turn := { id := "t", content := "c", startTime := 0, endTime := t },
    outcome := GenOutcome.result false "" "nice",
    writer := "w", commentId := "i", generationTime := 1 }

/-- C1, as the claim states it, fails on the code: at the very first
evaluation of a turn ending at media second 30 (so conversation time 30 ≥ 20
and gap 0), the claim formula gives timing `max(0.05, 0) = 0.05`, while
`evaluate` divides the timestamp by 1000, lands in the cold-start branch, and
yields 0.1. -/
theorem timing_factor_claim_counterexample :
    (evaluate rpowOne cfgStd (initState cfgStd) [] 30).fst.factors.timing = 0.1
    ∧ claimTimingFactor cfgStd (initState cfgStd).lastCommentTime 30 = 0.05
    ∧ ¬ ((0.1 : ℚ) = 0.05) := by
  refine ⟨?_, ?_, by norm_num⟩
  · norm_num [evaluate, cfgStd, initState, calculateTimingScore]
  · norm_num [claimTimingFactor, cfgStd, initState]

/-- C1 amended: for every `evaluate` call, the timing factor equals the
claim's branch structure applied to `conversationTime = timestamp / 1000` and
`gap = max(0, (timestamp - lastCommentTime) / 1000)` (0 while
`lastCommentTime` is still `-Infinity`). -/
theorem timing_factor_amended_eq (rpow : ℚ → ℚ → ℚ) (cfg : DecisionEngineConfig)
    (st : EngineState) (events : List Event) (ts : ℚ) :
    (evaluate rpow cfg st events ts).fst.factors.timing =
      timingFactorAmended cfg st.lastCommentTime ts := by
  cases h : st.lastCommentTime <;>
    simp [evaluate, timingFactorAmended, calculateTimingScore, h]

/-- C2, as the claim states it, fails on the code: with history comments at
media timestamps 20000 and 100000 and an evaluation at timestamp 100000, the
claimed window `[100000 - 90, 100000)` holds neither comment (suppression 1.0),
but the code's `0 ≤ timestamp - m < 90000` window holds both (suppression
0.4). -/
theorem frequency_suppression_claim_counterexample :
    calculateFrequencySuppression history0 100000 = 0.4
    ∧ claimFrequencySuppression history0 100000 = 1
    ∧ ¬ ((0.4 : ℚ) = 1) := by
  refine ⟨?_, ?_, by norm_num⟩
  · norm_num [calculateFrequencySuppression, history0, commentAt, List.filter]
  · norm_num [claimFrequencySuppression, history0, commentAt, List.filter]

/-- C2 amended: the modifier is determined by the number of history comments
whose timestamp `m` satisfies `0 ≤ timestamp - m < 90000`: at least 3 give
0.2, exactly 2 give 0.4, exactly 1 gives 0.6, none gives 1.0. -/
theorem frequency_suppression_amended_eq (history : List Comment) (ts : ℚ) :
    calculateFrequencySuppression history ts =
      (if 3 ≤ recentCommentCount history ts then 0.2
       else if recentCommentCount history ts = 2 then 0.4
       else if recentCommentCount history ts = 1 then 0.6 else 1) := by
  unfold calculateFrequencySuppression recentCommentCount
  simp only [List.countP_eq_length_filter]
  split_ifs <;> first | rfl | omega

/-- C6, as the claim states it, fails on the code: on a buffer with segments
at timestamps 0 and 100, a 50-second window should keep only the newer
segment, but the code's `cutoff = newest - 50 * 1000` keeps both. -/
theorem getWindow_claim_counterexample :
    TextBuffer.getWindow buf0 50 = "a b"
    ∧ claimGetWindow buf0 50 = "b"
    ∧ ¬ (("a b" : String) = "b") := by
  refine ⟨?_, ?_, by decide⟩
  · norm_num [TextBuffer.getWindow, buf0, List.filter, String.intercalate,
      String.intercalate.go]
    rfl
  · norm_num [claimGetWindow, buf0, List.filter, String.intercalate,
      String.intercalate.go]

/-- C6 amended: on every non-empty buffer, `getWindow(s)` space-joins, in
arrival order, exactly the segments whose timestamp is at least
`newest.timestamp - s * 1000` — the size is scaled by 1000 against
second-valued timestamps. -/
theorem getWindow_amended_eq (b : TextBuffer) (size : ℚ) (h : b.segments ≠ []) :
    TextBuffer.getWindow b size = getWindowAmended b size := by
  cases hl : b.segments.getLast? with
  | none => exact absurd (List.getLast?_eq_none_iff.mp hl) h
  | some newest => simp [TextBuffer.getWindow, getWindowAmended, hl]

/-- Witness for the amended C6 at a concrete non-empty buffer. -/
theorem getWindow_amended_eq_witness :
    TextBuffer.getWindow buf0 50 = getWindowAmended buf0 50 :=
  getWindow_amended_eq buf0 50 (by simp [buf0])

/-- C7, as the claim states it, fails on the code: a first `add` of a
ten-second turn starting at media time 0 leaves `bufferedStartTime = 0`, so
although the aggregated elapsed duration is 10000 ms ≥ 1200 ms, the
`bufferedStartTime > 0` guard forces `elapsedMs = 0` and `add` returns null
instead of flushing. -/
theorem aggregator_duration_flush_counterexample :
    (appendTurn cwOne aggCfgDefault aggResetState turnAtZero).bufferedStartTime = 0
    ∧ ((appendTurn cwOne aggCfgDefault aggResetState turnAtZero).lastTurnEndTime -
        (appendTurn cwOne aggCfgDefault aggResetState turnAtZero).bufferedStartTime) * 1000
        ≥ aggCfgDefault.minTurnDurationMs
    ∧ (ShortTurnAggregator.add cwOne aggCfgDefault aggResetState turnAtZero).snd = none := by
  refine ⟨?_, ?_, ?_⟩ <;>
    norm_num [ShortTurnAggregator.add, appendTurn, aggResetState, aggCfgDefault,
      cwOne, turnAtZero]

/-- C7 amended: whenever after appending the buffer start is positive and the
aggregated elapsed duration reaches `minTurnDurationMs`, `add` immediately
returns the aggregated turn and clears its buffer; aggregations whose
`bufferedStartTime` is media time 0 are excluded by the code's
`bufferedStartTime > 0` guard. -/
theorem aggregator_duration_flush_amended (countWords : String → ℕ)
    (cfg : ShortTurnAggregatorConfig) (st : AggState) (turn : Turn)
    (hpos : (appendTurn countWords cfg st turn).bufferedStartTime > 0)
    (hdur : ((appendTurn countWords cfg st turn).lastTurnEndTime -
        (appendTurn countWords cfg st turn).bufferedStartTime) * 1000 ≥
        cfg.minTurnDurationMs) :
    (ShortTurnAggregator.add countWords cfg st turn).snd =
      some { id := turn.id,
             content := (appendTurn countWords cfg st turn).bufferedContent,
             startTime := (appendTurn countWords cfg st turn).bufferedStartTime,
             endTime := (appendTurn countWords cfg st turn).lastTurnEndTime }
    ∧ (ShortTurnAggregator.add countWords cfg st turn).fst = aggResetState := by
  have hc : (appendTurn countWords cfg st turn).bufferedStartTime > 0 ∧
      (if (appendTurn countWords cfg st turn).bufferedStartTime > 0 then
        ((appendTurn countWords cfg st turn).lastTurnEndTime -
          (appendTurn countWords cfg st turn).bufferedStartTime) * 1000
      else 0) ≥ cfg.minTurnDurationMs := ⟨hpos, by rw [if_pos hpos]; exact hdur⟩
  simp only [ShortTurnAggregator.add]
  rw [if_pos (Or.inl hc)]
  exact ⟨rfl, rfl⟩

/-- Witness for the amended C7: a five-second turn starting at media time 5
flushes at once. -/
theorem aggregator_duration_flush_amended_witness :
    (ShortTurnAggregator.add cwOne aggCfgDefault aggResetState turnAtFive).snd =
      some { id := turnAtFive.id,
             content := (appendTurn cwOne aggCfgDefault aggResetState turnAtFive).bufferedContent,
             startTime := (appendTurn cwOne aggCfgDefault aggResetState turnAtFive).bufferedStartTime,
             endTime := (appendTurn cwOne aggCfgDefault aggResetState turnAtFive).lastTurnEndTime }
    ∧ (ShortTurnAggregator.add cwOne aggCfgDefault aggResetState turnAtFive).fst =
        aggResetState :=
  aggregator_duration_flush_amended cwOne aggCfgDefault aggResetState turnAtFive
    (by norm_num [appendTurn, aggResetState, turnAtFive])
    (by norm_num [appendTurn, aggResetState, turnAtFive, aggCfgDefault])

/-- C4: a job is dropped at pick-up exactly when its wall-clock enqueue age
strictly exceeds `MAX_TURN_STALENESS_MS = 5000`; enqueue stamps
`enqueuedAtMs` with the enqueue-time clock; and `processJob` re-applies the
same check before calling the detector. -/
theorem staleness_drop_iff :
    MAX_TURN_STALENESS_MS = 5000
    ∧ (∀ (pending : Option DetectionJob) (turn : Turn) (u : String)
        (f : Option String) (t0 : ℚ),
        EventDetectionQueue.enqueue t0 pending turn u f =
          some { turn := turn, uncommentedText := u, fullContext := f,
                 enqueuedAtMs := t0 })
    ∧ (∀ (j : DetectionJob) (t1 : ℚ),
        (workerPick (fun j2 => isTurnStale (some j2.enqueuedAtMs) t1) (some j)).snd =
            WorkerOutcome.dropStale j ↔ t1 - j.enqueuedAtMs > 5000)
    ∧ (∀ (j : DetectionJob) (t1 : ℚ),
        (workerPick (fun j2 => isTurnStale (some j2.enqueuedAtMs) t1) (some j)).snd =
            WorkerOutcome.process j ↔ ¬ (t1 - j.enqueuedAtMs > 5000))
    ∧ (∀ (j : DetectionJob) (t2 : ℚ),
        processJobReachesDetection j t2 = false ↔ t2 - j.enqueuedAtMs > 5000) := by
  refine ⟨rfl, fun _ _ _ _ _ => rfl, ?_, ?_, ?_⟩ <;> intro j t <;>
    by_cases h : t - j.enqueuedAtMs > 5000 <;>
      simp [workerPick, isTurnStale, processJobReachesDetection,
        MAX_TURN_STALENESS_MS, h]

/-- The slot after any interleaving is exactly the specification's most
recently enqueued, not yet picked-up job. -/
theorem qrunState_eq_latestUnpicked (tr : List QAction) :
    qrunState none tr = latestUnpicked tr := by
  induction tr using List.reverseRecOn with
  | nil => rfl
  | append_singleton tr a _ =>
      cases a with
      | enq j => simp [qrunState, latestUnpicked, List.foldl_append, qstep]
      | pick => simp [qrunState, latestUnpicked, List.foldl_append, qstep]

/-- C5: the queue is a single nullable slot (never more than one pending
job), every enqueue overwrites the slot, and after any interleaving the
worker's pick-up takes exactly the most recently enqueued job that no
pick-up consumed — `some j` precisely when the trace ends in `enq j`. -/
theorem queue_single_slot_latest_wins (tr : List QAction) :
    pendingCount (qrunState none tr) ≤ 1
    ∧ (∀ (s : Option DetectionJob) (j : DetectionJob),
        (qstep s (QAction.enq j)).fst = some j)
    ∧ (qstep (qrunState none tr) QAction.pick).snd = latestUnpicked tr
    ∧ (∀ j : DetectionJob,
        (qstep (qrunState none tr) QAction.pick).snd = some j ↔
          tr.getLast? = some (QAction.enq j)) := by
  refine ⟨?_, fun _ _ => rfl, ?_, ?_⟩
  · cases qrunState none tr <;> simp [pendingCount]
  · simpa [qstep] using qrunState_eq_latestUnpicked tr
  · intro j
    have h : (qstep (qrunState none tr) QAction.pick).snd = latestUnpicked tr := by
      simpa [qstep] using qrunState_eq_latestUnpicked tr
    rw [h]
    unfold latestUnpicked
    cases hg : tr.getLast? with
    | none => simp
    | some a => cases a <;> simp

/-- The three-branch threshold update keeps the threshold in [0.30, 0.95]
provided the base threshold itself lies in that interval. -/
theorem adjustThreshold_bounds (cfg : DecisionEngineConfig)
    (hb1 : 0.3 ≤ cfg.baseThreshold) (hb2 : cfg.baseThreshold ≤ 0.95)
    (t : ℚ) (c : Bool) (d : ℚ) (h1 : 0.3 ≤ t) (h2 : t ≤ 0.95) :
    0.3 ≤ adjustThreshold cfg t c d ∧ adjustThreshold cfg t c d ≤ 0.95 := by
  unfold adjustThreshold
  split_ifs with hA hB
  · exact ⟨le_min (by norm_num) (by linarith), min_le_left _ _⟩
  · exact ⟨le_max_left _ _, max_le (by norm_num) (by linarith)⟩
  · constructor <;> linarith

/-- `evaluate` changes the engine state only by one `adjustThreshold` step. -/
theorem evaluate_snd_shape (rpow : ℚ → ℚ → ℚ) (cfg : DecisionEngineConfig)
    (st : EngineState) (events : List Event) (ts : ℚ) :
    ∃ c d, (evaluate rpow cfg st events ts).snd =
      { st with dynamicThreshold := adjustThreshold cfg st.dynamicThreshold c d } :=
  ⟨_, _, rfl⟩

/-- Bounds on the dynamic threshold are preserved by any `evaluate`
sequence, for base thresholds in [0.30, 0.95]. -/
theorem runEvaluations_bounds (rpow : ℚ → ℚ → ℚ) (cfg : DecisionEngineConfig)
    (hb1 : 0.3 ≤ cfg.baseThreshold) (hb2 : cfg.baseThreshold ≤ 0.95)
    (steps : List (List Event × ℚ)) :
    ∀ st : EngineState, 0.3 ≤ st.dynamicThreshold → st.dynamicThreshold ≤ 0.95 →
      0.3 ≤ (runEvaluations rpow cfg st steps).dynamicThreshold ∧
        (runEvaluations rpow cfg st steps).dynamicThreshold ≤ 0.95 := by
  induction steps with
  | nil => exact fun st h1 h2 => ⟨h1, h2⟩
  | cons p rest ih =>
      intro st h1 h2
      obtain ⟨c, d, hcd⟩ := evaluate_snd_shape rpow cfg st p.fst p.snd
      have hth : (evalStep rpow cfg st p).dynamicThreshold =
          adjustThreshold cfg st.dynamicThreshold c d := by
        unfold evalStep
        rw [hcd]
      obtain ⟨hl, hr⟩ := adjustThreshold_bounds cfg hb1 hb2 st.dynamicThreshold c d h1 h2
      have hstep : runEvaluations rpow cfg st (p :: rest) =
          runEvaluations rpow cfg (evalStep rpow cfg st p) rest := rfl
      rw [hstep]
      exact ih (evalStep rpow cfg st p) (by rw [hth]; exact hl) (by rw [hth]; exact hr)

/-- C3, as the claim states it, fails on the code: the claim quantifies over
all `baseThreshold ∈ [0, 1]`, but at `baseThreshold = 0` the initial
threshold `min(0 × 1.3, 0.85) = 0` is below 0.30, and at `baseThreshold = 1`
the regression branch maps the in-range threshold 0.95 (reachable as the cap
of the increase branch) to 0.955 > 0.95. -/
theorem dynamic_threshold_claim_counterexample :
    ((0 : ℚ) ≤ cfgBaseZero.baseThreshold ∧ cfgBaseZero.baseThreshold ≤ 1)
    ∧ (initState cfgBaseZero).dynamicThreshold = 0
    ∧ ¬ (0.3 ≤ (initState cfgBaseZero).dynamicThreshold)
    ∧ ((0 : ℚ) ≤ cfgBaseOne.baseThreshold ∧ cfgBaseOne.baseThreshold ≤ 1)
    ∧ ((0.3 : ℚ) ≤ 0.95 ∧ (0.95 : ℚ) ≤ 0.95)
    ∧ adjustThreshold cfgBaseOne 0.95 false 50 = 0.955
    ∧ ¬ (adjustThreshold cfgBaseOne 0.95 false 50 ≤ 0.95) := by
  norm_num [initState, cfgBaseZero, cfgBaseOne, cfgStd, adjustThreshold]

/-- C3 amended: for every `baseThreshold ∈ [0.30, 0.95]`, the dynamic
threshold is initialised to `min(baseThreshold × 1.3, 0.85)`, lies in
[0.30, 0.95] at initialisation, and stays in [0.30, 0.95] after every
sequence of `evaluate` calls. -/
theorem dynamic_threshold_bounds_amended (rpow : ℚ → ℚ → ℚ)
    (cfg : DecisionEngineConfig)
    (hb1 : 0.3 ≤ cfg.baseThreshold) (hb2 : cfg.baseThreshold ≤ 0.95)
    (steps : List (List Event × ℚ)) :
    (initState cfg).dynamicThreshold = min (cfg.baseThreshold * 1.3) 0.85
    ∧ 0.3 ≤ (initState cfg).dynamicThreshold
    ∧ (initState cfg).dynamicThreshold ≤ 0.95
    ∧ 0.3 ≤ (runEvaluations rpow cfg (initState cfg) steps).dynamicThreshold
    ∧ (runEvaluations rpow cfg (initState cfg) steps).dynamicThreshold ≤ 0.95 := by
  have h1 : 0.3 ≤ (initState cfg).dynamicThreshold :=
    le_min (by linarith) (by norm_num)
  have h2 : (initState cfg).dynamicThreshold ≤ 0.95 :=
    le_trans (min_le_right _ _) (by norm_num)
  obtain ⟨h4, h5⟩ := runEvaluations_bounds rpow cfg hb1 hb2 steps (initState cfg) h1 h2
  exact ⟨rfl, h1, h2, h4, h5⟩

/-- Witness for the amended C3 at the default configuration and one
evaluation. -/
theorem dynamic_threshold_bounds_amended_witness :
    (initState cfgStd).dynamicThreshold = min (cfgStd.baseThreshold * 1.3) 0.85
    ∧ 0.3 ≤ (initState cfgStd).dynamicThreshold
    ∧ (initState cfgStd).dynamicThreshold ≤ 0.95
    ∧ 0.3 ≤ (runEvaluations rpowOne cfgStd (initState cfgStd) [([], 30)]).dynamicThreshold
    ∧ (runEvaluations rpowOne cfgStd (initState cfgStd) [([], 30)]).dynamicThreshold ≤ 0.95 :=
  dynamic_threshold_bounds_amended rpowOne cfgStd (by norm_num [cfgStd])
    (by norm_num [cfgStd]) [([], 30)]

/-- C8: across every `generateAndEmitComment` run, the context buffer is
never cleared; the uncommented buffer is cleared exactly when
`comment-generated` is emitted; a successful run performs, in order,
history update, uncommented-buffer clear, `comment-generated`; and a
rejection or an exception leaves the state untouched. -/
theorem emission_buffer_discipline (nowMs : ℚ) (st : SystemState) (turn : Turn)
    (outcome : GenOutcome) (writer commentId : String) (generationTime : ℚ) :
    (generateAndEmitComment nowMs st turn outcome writer commentId
        generationTime).fst.fullContextBuffer = st.fullContextBuffer
    ∧ (EmitAction.uncommentedCleared ∈
        (generateAndEmitComment nowMs st turn outcome writer commentId
          generationTime).snd ↔
        ∃ c, EmitAction.commentGenerated c ∈
          (generateAndEmitComment nowMs st turn outcome writer commentId
            generationTime).snd)
    ∧ (∀ reason content, ¬ (content = "") →
        generateAndEmitComment nowMs st turn (GenOutcome.result false reason content)
            writer commentId generationTime =
          ({ fullContextBuffer := st.fullContextBuffer
             uncommentedBuffer := TextBuffer.clear st.uncommentedBuffer
             engine := updateHistory nowMs st.engine
               { id := commentId, content := content, writer := writer,
                 length := content.length, generationTime := generationTime,
                 timestamp := some turn.endTime } },
           [EmitAction.commentStarted,
            EmitAction.historyUpdated
              { id := commentId, content := content, writer := writer,
                length := content.length, generationTime := generationTime,
                timestamp := some turn.endTime },
            EmitAction.uncommentedCleared,
            EmitAction.commentGenerated
              { id := commentId, content := content, writer := writer,
                length := content.length, generationTime := generationTime,
                timestamp := some turn.endTime }]))
    ∧ (∀ reason content,
        generateAndEmitComment nowMs st turn (GenOutcome.result true reason content)
            writer commentId generationTime =
          (st, [EmitAction.commentStarted, EmitAction.commentRejected reason]))
    ∧ (∀ started,
        (generateAndEmitComment nowMs st turn (GenOutcome.genError started)
          writer commentId generationTime).fst = st) := by
  refine ⟨?_, ?_, ?_, ?_, fun _ => rfl⟩
  · rcases outcome with started | ⟨reject, reason, content⟩
    · rfl
    · cases reject
      · by_cases hc : content = "" <;> simp [generateAndEmitComment, hc]
      · rfl
  · rcases outcome with started | ⟨reject, reason, content⟩
    · cases started <;> simp [generateAndEmitComment]
    · cases reject
      · by_cases hc : content = "" <;> simp [generateAndEmitComment, hc]
      · simp [generateAndEmitComment]
  · intro reason content hc
    simp [generateAndEmitComment, hc]
  · intro reason content
    rfl

/-- C10: when the generator accepts but produces empty content, the run
returns silently: the state is untouched and none of `comment-generated`,
`comment-rejected` or `error` is emitted. -/
theorem empty_content_no_effect (nowMs : ℚ) (st : SystemState) (turn : Turn)
    (reason writer commentId : String) (generationTime : ℚ) :
    (generateAndEmitComment nowMs st turn (GenOutcome.result false reason "")
        writer commentId generationTime).fst = st
    ∧ (generateAndEmitComment nowMs st turn (GenOutcome.result false reason "")
        writer commentId generationTime).snd = [EmitAction.commentStarted]
    ∧ (∀ c, ¬ (EmitAction.commentGenerated c ∈
        (generateAndEmitComment nowMs st turn (GenOutcome.result false reason "")
          writer commentId generationTime).snd))
    ∧ (∀ r2, ¬ (EmitAction.commentRejected r2 ∈
        (generateAndEmitComment nowMs st turn (GenOutcome.result false reason "")
          writer commentId generationTime).snd))
    ∧ ¬ (EmitAction.errorEmitted ∈
        (generateAndEmitComment nowMs st turn (GenOutcome.result false reason "")
          writer commentId generationTime).snd) := by
  refine ⟨rfl, rfl, ?_, ?_, ?_⟩ <;> simp [generateAndEmitComment]

/-- The `lastCommentTime` values recorded at successful emissions are exactly
the emitted comments' timestamps, i.e. the end times of the emitting turns. -/
theorem lctSnapshots_eq (nowMs : ℚ) (steps : List EmissionStep) :
    ∀ st : SystemState, lctSnapshots nowMs st steps =
      ((steps.filter fun s => emitsStep s).map fun s => some s.turn.endTime) := by
  induction steps with
  | nil => intro st; rfl
  | cons s rest ih =>
      intro st
      rcases s with ⟨turn, outcome, w, cid, gt⟩
      rcases outcome with started | ⟨reject, reason, content⟩
      · cases started <;>
          simp [lctSnapshots, emitsStep, generateAndEmitComment, isCommentGenerated, ih]
      · cases reject
        · by_cases hc : content = ""
          · simp [lctSnapshots, emitsStep, generateAndEmitComment, isCommentGenerated,
              hc, ih]
          · simp [lctSnapshots, emitsStep, generateAndEmitComment, isCommentGenerated,
              hc, ih, updateHistory]
        · simp [lctSnapshots, emitsStep, generateAndEmitComment, isCommentGenerated, ih]

/-- C9: over any emission sequence whose triggering turns have non-decreasing
end times (media time is monotone per stream), the `lastCommentTime` values
set by `updateHistory` at the successful emissions are exactly those turns'
end times and are non-decreasing across the sequence. -/
theorem lastCommentTime_monotone (nowMs : ℚ) (st : SystemState)
    (steps : List EmissionStep)
    (hmono : (steps.map fun s => s.turn.endTime).Pairwise (· ≤ ·)) :
    lctSnapshots nowMs st steps =
      ((steps.filter fun s => emitsStep s).map fun s => some s.turn.endTime)
    ∧ (((steps.filter fun s => emitsStep s).map fun s => s.turn.endTime).Pairwise
        (· ≤ ·)) := by
  refine ⟨lctSnapshots_eq nowMs steps st, ?_⟩
  have hsub : List.Sublist
      ((steps.filter fun s => emitsStep s).map fun s => s.turn.endTime)
      (steps.map fun s => s.turn.endTime) :=
    List.Sublist.map _ (List.filter_sublist steps)
  exact hmono.sublist hsub

/-- Witness for C9 at two successful emissions with end times 5 and 7. -/
theorem lastCommentTime_monotone_witness :
    lctSnapshots 0 sysState0 [okStepAt 5, okStepAt 7] =
      ((([okStepAt 5, okStepAt 7]).filter fun s => emitsStep s).map
        fun s => some s.turn.endTime)
    ∧ (((([okStepAt 5, okStepAt 7]).filter fun s => emitsStep s).map
        fun s => s.turn.endTime).Pairwise (· ≤ ·)) :=
  lastCommentTime_monotone 0 sysState0 [okStepAt 5, okStepAt 7]
    (by norm_num [okStepAt, List.pairwise_cons])

end ProfAIReaction
